import Mathlib

/-!
Shallow embedding of `src/sae_ts/baselines/analysis.py` (repository
ArthurConmy/SAE-TS) and proofs about its steering-vector derivation and
scale-sweep evaluation logic.

Modelling conventions:
* Python floats are modelled as exact numbers: `ℚ` for the scoring /
  aggregation pipeline, `ℝ` for the linear-algebra vector derivations
  (which involve L2 norms, hence square roots).
* Tensors become functions `Fin n → ℝ` and `Matrix (Fin m) (Fin n) ℝ`.
* File I/O is abstracted: file contents become explicit parameters, and
  fallible operations return `Except String _` (a Python exception is the
  `.error` case, propagating exactly as an uncaught exception does).
* External collaborators (the transformer, the LLM evaluator) become
  function parameters, quantified over in the theorems.
-/

namespace SAETS

/-! ### Python `range` -/

/-- Semantics of Python `range(start, stop, step)` for a positive step:
the arithmetic progression starting at `start` with the given `step`,
containing exactly the values `< stop`.  `analysis.py` line 179 uses
`list(range(0, 320, 20))`. -/
def pyRange (start stop step : ℕ) : List ℕ :=
  List.range' start ((stop - start + step - 1) / step) step

/-! ### Scoring pipeline (`analyse_steer`, lines 178-261) -/

/-- Rescaling of a raw rubric score, `analysis.py` lines 211 and 213:
`(item - 1) / 9`. -/
def rescale (r : ℚ) : ℚ := (r - 1) / 9

/-- Python `sum(l) / len(l)` (lines 222-223).  Python raises
`ZeroDivisionError` on an empty list; in `ℚ` division by zero yields `0`,
a branch never reached in the claims below. -/
def listMean (l : List ℚ) : ℚ := l.sum / l.length

/-- Modelled from the spec: `steer_model` lives in `ft_effects/utils`,
which is not under `src/`.  Per the spec it produces "a fixed-size batch of
independent text completions" of size `n_samples` from the same prompt,
with `scale × vector` injected during generation.  The sampling itself is
abstracted by `sampler : prompt → scale → sample index → text`. -/
def steer_model (sampler : String → ℕ → ℕ → String)
    (prompt : String) (scale n_samples : ℕ) : List String :=
  (List.range n_samples).map (sampler prompt scale)

/-- Prompt selection, `analysis.py` lines 183-187: a non-`None`
`default_prompt` wins; otherwise element `0` of the `prompts.json` list is
used (`none` models the `IndexError` on an empty list). -/
def select_prompt (default_prompt : Option String) (prompts_file : List String) :
    Option String :=
  match default_prompt with
  | some p => some p
  | none => prompts_file.head?

/-- Per-scale data accumulated by the loop body of `analyse_steer`
(lines 199-223). -/
structure StepData where
  scale : ℕ
  texts : List String
  score : List ℚ
  coherence : List ℚ
  products : List ℚ
  deriving Repr, DecidableEq

/-- Raw evaluator output for one scale (lines 200-208): the generated
batch is scored by `multi_criterion_evaluation`, returning one raw score
and one raw coherence value per sample.  `evalFn` abstracts the external
LLM evaluator. -/
def step_raw (sampler : String → ℕ → ℕ → String)
    (evalFn : List String → String → List ℚ × List ℚ)
    (prompt : String) (scale : ℕ) : List ℚ × List ℚ :=
  evalFn (steer_model sampler prompt scale 256) prompt

/-- Loop body of `analyse_steer` for one scale (lines 199-220). -/
def step (sampler : String → ℕ → ℕ → String)
    (evalFn : List String → String → List ℚ × List ℚ)
    (prompt : String) (scale : ℕ) : StepData :=
  let texts := steer_model sampler prompt scale 256
  let raw := step_raw sampler evalFn prompt scale
  let score := raw.1.map rescale
  let coherence := raw.2.map rescale
  { scale := scale
    texts := texts
    score := score
    coherence := coherence
    products := score.zipWith (fun s c => s * c) coherence }

/-- Selection of the best scale, `analysis.py` lines 229-231:
`max_product = max(product)`, `max_index = product.index(max_product)`,
`max_scale = scales[max_index]`.  Python `max` on an empty list raises;
the `getD` defaults model that unreachable branch. -/
def best_scale (scales : List ℕ) (product : List ℚ) : ℚ × ℕ :=
  let max_product := (product.max?).getD 0
  let max_index := product.indexOf max_product
  (max_product, scales.getD max_index 0)

/-- Everything `analyse_steer` computes and persists: the `result` dict
(lines 234-240), the `graph_data` dict (lines 248-259) and the
`all_texts` list written to `generated_texts_<method>.json` (line 243). -/
structure AnalyseOutput where
  all_texts : List (ℕ × List String)
  result_path : String
  result_method : String
  steering_goal_name : String
  max_product : ℚ
  scale_at_max : ℕ
  scales : List ℕ
  avg_coherence : List ℚ
  avg_score : List ℚ
  product : List ℚ
  individual_scores : List (List ℚ)
  individual_coherences : List (List ℚ)
  individual_products : List (List ℚ)
  deriving Repr, DecidableEq

/-- Embedding of `analyse_steer` (lines 178-261).  `goal` stands for
`criteria[0].get("name", "Unknown")`; generation and evaluation are the
abstract `sampler` and `evalFn`.  `select_prompt ... |>.getD ""` models
lines 183-187 (the empty default is the unreachable `IndexError` branch). -/
def analyse_steer (sampler : String → ℕ → ℕ → String)
    (evalFn : List String → String → List ℚ × List ℚ)
    (default_prompt : Option String) (prompts_file : List String)
    (goal method path : String) : AnalyseOutput :=
  let scales := pyRange 0 320 20
  let prompt := (select_prompt default_prompt prompts_file).getD ""
  let steps := scales.map (step sampler evalFn prompt)
  let avg_score := steps.map (fun st => listMean st.score)
  let avg_coh := steps.map (fun st => listMean st.coherence)
  let product := avg_coh.zipWith (fun c s => c * s) avg_score
  let mp_sc := best_scale scales product
  { all_texts := steps.map (fun st => (st.scale, st.texts))
    result_path := path
    result_method := method
    steering_goal_name := goal
    max_product := mp_sc.1
    scale_at_max := mp_sc.2
    scales := scales
    avg_coherence := avg_coh
    avg_score := avg_score
    product := product
    individual_scores := steps.map (fun st => st.score)
    individual_coherences := steps.map (fun st => st.coherence)
    individual_products := steps.map (fun st => st.products) }

/-! ### SAE back-end dispatch (`load_sae_model`, lines 25-49) -/

/-- Configuration keys consulted by `load_sae_model`.  `sae_load_method`
is `Option` because the code reads it with
`config.get("sae_load_method", "saelens")`. -/
structure SAEConfig where
  sae_load_method : Option String
  sae : String
  layer : String
  repo_id : String
  filename : String
  deriving Repr, DecidableEq

/-- Result of `load_sae_model`, recording which back-end produced the SAE
and from which identifiers (the actual weight loading is external). -/
inductive LoadedSAE where
  | saelens (release sae_id : String)
  | gemmascope (repo_id filename : String)
  deriving Repr, DecidableEq

/-- Embedding of `load_sae_model` (lines 25-49): dispatch on
`config.get("sae_load_method", "saelens")`, raising
`ValueError(f"Unknown sae_load_method: {sae_load_method}")` otherwise. -/
def load_sae_model (config : SAEConfig) : Except String LoadedSAE :=
  let m := config.sae_load_method.getD "saelens"
  if m = "saelens" then
    Except.ok (LoadedSAE.saelens config.sae config.layer)
  else if m = "gemmascope" then
    Except.ok (LoadedSAE.gemmascope config.repo_id config.filename)
  else
    Except.error ("Unknown sae_load_method: " ++ m)

/-! ### The `__main__` sweep loop (lines 320-354) -/

/-- Body of the sweep for one configuration directory (lines 322-354):
the four methods run strictly in order, each `analyse_steer` call either
returns its result or raises (its file writes are inside it); an
exception propagates immediately. -/
def process_path (body : String → String → Except String AnalyseOutput)
    (path : String) : Except String (List AnalyseOutput) := do
  let r1 ← body path "ActSteer"
  let r2 ← body path "SAE"
  let r3 ← body path "OptimisedSteer"
  let r4 ← body path "PinverseSteer"
  pure [r1, r2, r3, r4]

/-- The `for path in paths` loop (lines 320-354): no `try`/`except`
anywhere, so the first exception aborts the whole sweep and nothing is
returned for any configuration. -/
def run_sweep (body : String → String → Except String AnalyseOutput)
    (paths : List String) : Except String (List AnalyseOutput) := do
  let rss ← paths.mapM (process_path body)
  pure rss.flatten

/-! ### Vector derivations (lines 52-158) -/

/-- L2 norm of a vector, the meaning of `torch.norm(v)` on a 1-D tensor. -/
noncomputable def l2norm {n : ℕ} (v : Fin n → ℝ) : ℝ := Real.sqrt (∑ i, v i ^ 2)

/-- Division of a vector by its L2 norm, the `v / torch.norm(v)` idiom
used at lines 66, 76, 78, 81 and 86 (over `ℝ`, `x / 0 = 0` stands in for
the `NaN`s Python would produce on the zero vector). -/
noncomputable def normalize {n : ℕ} (v : Fin n → ℝ) : Fin n → ℝ := fun i => v i / l2norm v

/-- Normalisation of the activation-difference steering vector, line 326:
`steer = steer / torch.norm(steer, dim=-1, keepdim=True)`. -/
noncomputable def act_steer_normalised {d : ℕ} (steer : Fin d → ℝ) : Fin d → ℝ :=
  normalize steer

/-- Combination of the selected decoder rows in `load_sae_steer`
(lines 61-65): `sum of W_dec[ft_id] * ft_scale` over the configured
feature list.  `W_dec : F × d` is the SAE decoder matrix. -/
noncomputable def sae_steer_pre {F d : ℕ} (W_dec : Matrix (Fin F) (Fin d) ℝ)
    (features : List (Fin F × ℝ)) : Fin d → ℝ :=
  (features.map (fun p => p.2 • W_dec p.1)).sum

/-- Steering vector of `load_sae_steer` (line 66): the feature
combination divided by its norm. -/
noncomputable def sae_steer_vec {F d : ℕ} (W_dec : Matrix (Fin F) (Fin d) ℝ)
    (features : List (Fin F × ℝ)) : Fin d → ℝ :=
  normalize (sae_steer_pre W_dec features)

/-- Vector `single_step_steer` normalises last (lines 75-80):
`steer_vec/‖steer_vec‖ - bias_scale * (W@b)/‖W@b‖` with
`steer_vec = W @ target`.  `W : m × n` is the adapter weight
(`m` the model activation dimension, `n` the SAE feature dimension),
`b : ℝ^n` the adapter bias. -/
noncomputable def single_step_pre {m n : ℕ} (W : Matrix (Fin m) (Fin n) ℝ)
    (b target : Fin n → ℝ) (bias_scale : ℝ) : Fin m → ℝ :=
  let steer_vec := normalize (W.mulVec target)
  let bias_vec := normalize (W.mulVec b)
  fun i => steer_vec i - bias_vec i * bias_scale

/-- Embedding of `single_step_steer` (lines 73-82): the pre-vector above,
divided by its own norm (line 81). -/
noncomputable def single_step_steer {m n : ℕ} (W : Matrix (Fin m) (Fin n) ℝ)
    (b target : Fin n → ℝ) (bias_scale : ℝ) : Fin m → ℝ :=
  normalize (single_step_pre W b target bias_scale)

/-- Moore-Penrose conditions: what `torch.linalg.pinv(W)` (an external
library call, line 89) returns.  The four Penrose axioms characterise the
pseudo-inverse uniquely, so any `Wp` satisfying them is the matrix the
code computes. -/
def isPinv {m n : ℕ} (W : Matrix (Fin m) (Fin n) ℝ)
    (Wp : Matrix (Fin n) (Fin m) ℝ) : Prop :=
  W * Wp * W = W ∧ Wp * W * Wp = Wp ∧
    Matrix.transpose (W * Wp) = W * Wp ∧ Matrix.transpose (Wp * W) = Wp * W

/-- Embedding of `pinverse_steer` (lines 84-91), with the pseudo-inverse
`Wp` of `adapter.W` passed explicitly: the target is normalised, scaled
by `target_scale`, and `(target - b) @ Wp` is returned — with no final
normalisation. -/
noncomputable def pinverse_steer {m n : ℕ} (Wp : Matrix (Fin n) (Fin m) ℝ)
    (b target : Fin n → ℝ) (target_scale : ℝ) : Fin m → ℝ :=
  let t := target_scale • normalize target
  Matrix.vecMul (t - b) Wp

/-- Target construction in `load_optimised_steer` (lines 105-107):
`target = zeros(W.shape[1])`, then `target[ft_id] = ft_scale` for each
configured pair. -/
noncomputable def load_optimised_target {n : ℕ} (features : List (Fin n × ℝ)) : Fin n → ℝ :=
  features.foldl (fun t p => Function.update t p.1 p.2) 0

/-- Target construction in `load_pinv_steer` (lines 123-125), verbatim
the same loop as in `load_optimised_steer`. -/
noncomputable def load_pinv_target {n : ℕ} (features : List (Fin n × ℝ)) : Fin n → ℝ :=
  features.foldl (fun t p => Function.update t p.1 p.2) 0

/-- Steering vector computed by `load_optimised_steer` (line 109):
`single_step_steer(adapter, target, bias_scale=1)`. -/
noncomputable def load_optimised_steer_vec {m n : ℕ} (W : Matrix (Fin m) (Fin n) ℝ)
    (b : Fin n → ℝ) (features : List (Fin n × ℝ)) : Fin m → ℝ :=
  single_step_steer W b (load_optimised_target features) 1

/-- Steering vector computed by `load_pinv_steer` (line 127):
`pinverse_steer(adapter, target, target_scale=1)`. -/
noncomputable def load_pinv_steer_vec {m n : ℕ} (Wp : Matrix (Fin n) (Fin m) ℝ)
    (b : Fin n → ℝ) (features : List (Fin n × ℝ)) : Fin m → ℝ :=
  pinverse_steer Wp b (load_pinv_target features) 1

/-- Modelled from the spec: the solution the spec attributes to the
pseudo-inverse method, "solve the linear system `(target − bias) ·
pinv(W)`" — the raw feature-space target minus the bias, multiplied by
the pseudo-inverse.  Kept separate from `pinverse_steer` (the code) to
compare the two. -/
noncomputable def pinv_solution_spec {m n : ℕ} (Wp : Matrix (Fin n) (Fin m) ℝ)
    (b target : Fin n → ℝ) : Fin m → ℝ :=
  Matrix.vecMul (target - b) Wp

/-! ### Helper lemmas -/

lemma sum_sq_pos {n : ℕ} {v : Fin n → ℝ} (h : v ≠ 0) : 0 < ∑ i, v i ^ 2 := by
  obtain ⟨i, hi⟩ := Function.ne_iff.mp h
  have hmem : i ∈ Finset.univ := Finset.mem_univ i
  refine Finset.sum_pos' (fun j _ => by positivity) ⟨i, hmem, ?_⟩
  have : v i ≠ 0 := hi
  positivity

lemma l2norm_pos {n : ℕ} {v : Fin n → ℝ} (h : v ≠ 0) : 0 < l2norm v :=
  Real.sqrt_pos.mpr (sum_sq_pos h)

/-- Dividing a nonzero vector by its L2 norm yields a unit-norm vector. -/
lemma l2norm_normalize {n : ℕ} {v : Fin n → ℝ} (h : v ≠ 0) :
    l2norm (normalize v) = 1 := by
  have hc : 0 < l2norm v := l2norm_pos h
  have hpos : 0 < ∑ i, v i ^ 2 := sum_sq_pos h
  have hsq : l2norm v ^ 2 = ∑ i, v i ^ 2 := Real.sq_sqrt hpos.le
  have hsum : ∑ i, normalize v i ^ 2 = 1 := by
    simp only [normalize, div_pow]
    rw [← Finset.sum_div, hsq, div_self (ne_of_gt hpos)]
  show Real.sqrt (∑ i, normalize v i ^ 2) = 1
  rw [hsum, Real.sqrt_one]

/-- Specification of `List.foldl max`: the result is the accumulator or a
member, bounds the accumulator, and bounds every member. -/
lemma foldl_max_spec (as : List ℚ) (a : ℚ) :
    (as.foldl max a = a ∨ as.foldl max a ∈ as) ∧
      a ≤ as.foldl max a ∧ ∀ b ∈ as, b ≤ as.foldl max a := by
  induction as generalizing a with
  | nil => simp
  | cons x xs ih =>
    obtain ⟨hmem, hle, hall⟩ := ih (max a x)
    simp only [List.foldl_cons]
    refine ⟨?_, ?_, ?_⟩
    · rcases hmem with hm | hm
      · rcases max_choice a x with hc | hc
        · exact Or.inl (hm.trans hc)
        · exact Or.inr (List.mem_cons.mpr (Or.inl (hm.trans hc)))
      · exact Or.inr (List.mem_cons.mpr (Or.inr hm))
    · exact le_trans (le_max_left a x) hle
    · intro b hb
      rcases List.mem_cons.mp hb with hb | hb
      · rw [hb]
        exact le_trans (le_max_right a x) hle
      · exact hall b hb

/-- Specification of `List.max?` on a nonempty list: it returns a member
that bounds every member (the meaning of Python `max`). -/
lemma max?_spec (l : List ℚ) (h : l ≠ []) :
    ∃ m, l.max? = some m ∧ m ∈ l ∧ ∀ b ∈ l, b ≤ m := by
  cases l with
  | nil => exact absurd rfl h
  | cons x xs =>
    obtain ⟨hmem, hle, hall⟩ := foldl_max_spec xs x
    refine ⟨xs.foldl max x, rfl, ?_, ?_⟩
    · rcases hmem with hm | hm
      · exact List.mem_cons.mpr (Or.inl hm)
      · exact List.mem_cons_of_mem x hm
    · intro b hb
      rcases List.mem_cons.mp hb with hb | hb
      · rw [hb]
        exact hle
      · exact hall b hb

/-- Element at the index found by `List.indexOf` (Python `l.index(a)`). -/
lemma getD_indexOf {l : List ℚ} {a : ℚ} (h : a ∈ l) (d : ℚ) :
    l.getD (l.indexOf a) d = a := by
  have hlt : l.indexOf a < l.length := List.indexOf_lt_length.mpr h
  rw [List.getD_eq_getElem l d hlt]
  exact List.getElem_indexOf hlt

/-- Minimality of `List.indexOf`: every position strictly before it holds
a different element. -/
lemma getD_ne_of_lt_indexOf {l : List ℚ} {a : ℚ} {k : ℕ}
    (h : k < l.indexOf a) (d : ℚ) : l.getD k d ≠ a := by
  induction l generalizing k with
  | nil => simp [List.indexOf] at h
  | cons x xs ih =>
    by_cases hx : x = a
    · subst hx
      simp [List.indexOf_cons_self] at h
    · rw [List.indexOf_cons_ne xs hx] at h
      cases k with
      | zero => simpa using hx
      | succ k =>
        have hk : k < xs.indexOf a := Nat.lt_of_succ_lt_succ h
        simpa using ih hk

/-- Pointwise reading of an elementwise product of equal-length lists,
with out-of-range positions defaulting to `0 = 0 * 0`. -/
lemma zipWith_mul_getD (l1 l2 : List ℚ) (h : l1.length = l2.length) (i : ℕ) :
    (l1.zipWith (fun c s => c * s) l2).getD i 0 = l1.getD i 0 * l2.getD i 0 := by
  induction l1 generalizing l2 i with
  | nil =>
    have : l2 = [] := by
      cases l2 with
      | nil => rfl
      | cons y ys => simp at h
    subst this; simp
  | cons x xs ih =>
    cases l2 with
    | nil => simp at h
    | cons y ys =>
      cases i with
      | zero => simp
      | succ i =>
        have hlen : xs.length = ys.length := by simpa using h
        simpa using ih ys hlen i

/-- The 1×1 identity matrix is its own Moore-Penrose pseudo-inverse. -/
lemma isPinv_one : isPinv (1 : Matrix (Fin 1) (Fin 1) ℝ) 1 := by
  refine ⟨?_, ?_, ?_, ?_⟩ <;> simp

/-- Mapping a constant-valued function is replication. -/
lemma map_const_of_all {α β : Type _} (f : α → β) (c : β) (l : List α)
    (h : ∀ x, f x = c) : l.map f = List.replicate l.length c := by
  induction l with
  | nil => rfl
  | cons x xs ih => simp [h, ih, List.replicate_succ]

/-! ### Claim theorems -/

/-- C4: each raw rubric score `r` is rescaled by `r ↦ (r − 1) / 9`; for
every `r ∈ {1,...,10}` the result lies in `[0, 1]`, with `r = 1` mapping
to `0` and `r = 10` mapping to `1`, and `analyse_steer` applies this map
to both the task score and the coherence score of every sample (the
`individual_scores` and `individual_coherences` it records are exactly
the raw evaluator outputs mapped through `rescale`). -/
theorem rescale_unit_interval (r : ℕ) (hr1 : 1 ≤ r) (hr2 : r ≤ 10) :
    (0 ≤ rescale r ∧ rescale r ≤ 1) ∧ rescale 1 = 0 ∧ rescale 10 = 1 ∧
    ∀ sampler evalFn dp pf goal method path,
      (analyse_steer sampler evalFn dp pf goal method path).individual_scores
        = (pyRange 0 320 20).map (fun s =>
            (step_raw sampler evalFn ((select_prompt dp pf).getD "") s).1.map rescale) ∧
      (analyse_steer sampler evalFn dp pf goal method path).individual_coherences
        = (pyRange 0 320 20).map (fun s =>
            (step_raw sampler evalFn ((select_prompt dp pf).getD "") s).2.map rescale) := by
  have hq1 : (1 : ℚ) ≤ (r : ℚ) := by exact_mod_cast hr1
  have hq2 : (r : ℚ) ≤ 10 := by exact_mod_cast hr2
  refine ⟨⟨?_, ?_⟩, by norm_num [rescale], by norm_num [rescale], ?_⟩
  · exact div_nonneg (by linarith) (by norm_num)
  · rw [rescale, div_le_one (by norm_num)]
    linarith
  · intro sampler evalFn dp pf goal method path
    constructor <;> simp [analyse_steer, step, List.map_map]

/-- Witness for C4 at `r = 5`. -/
theorem rescale_unit_interval_witness :
    (0 ≤ rescale ((5 : ℕ) : ℚ) ∧ rescale ((5 : ℕ) : ℚ) ≤ 1) ∧
    rescale 1 = 0 ∧ rescale 10 = 1 ∧
    ∀ sampler evalFn dp pf goal method path,
      (analyse_steer sampler evalFn dp pf goal method path).individual_scores
        = (pyRange 0 320 20).map (fun s =>
            (step_raw sampler evalFn ((select_prompt dp pf).getD "") s).1.map rescale) ∧
      (analyse_steer sampler evalFn dp pf goal method path).individual_coherences
        = (pyRange 0 320 20).map (fun s =>
            (step_raw sampler evalFn ((select_prompt dp pf).getD "") s).2.map rescale) :=
  rescale_unit_interval 5 (by norm_num) (by norm_num)

/-- C5: when the configuration carries an `sae_load_method` that is
neither `"saelens"` nor `"gemmascope"`, `load_sae_model` raises a
`ValueError` whose message names the unrecognised value, and never
returns a loaded SAE from a default back-end. -/
theorem load_sae_model_unknown_method (config : SAEConfig) (v : String)
    (hv : config.sae_load_method = some v)
    (h1 : v ≠ "saelens") (h2 : v ≠ "gemmascope") :
    load_sae_model config = Except.error ("Unknown sae_load_method: " ++ v) ∧
    ∀ s, load_sae_model config ≠ Except.ok s := by
  have he : load_sae_model config
      = Except.error ("Unknown sae_load_method: " ++ v) := by
    simp [load_sae_model, hv, h1, h2]
  exact ⟨he, fun s hs => by rw [he] at hs; exact Except.noConfusion hs⟩

/-- Witness for C5 on a configuration whose load method is `"foo"`. -/
theorem load_sae_model_unknown_method_witness :
    load_sae_model ⟨some "foo", "rel", "lay", "repo", "file"⟩
      = Except.error ("Unknown sae_load_method: " ++ "foo") ∧
    ∀ s, load_sae_model ⟨some "foo", "rel", "lay", "repo", "file"⟩ ≠ Except.ok s :=
  load_sae_model_unknown_method ⟨some "foo", "rel", "lay", "repo", "file"⟩ "foo"
    rfl (by decide) (by decide)

/-- C10: a configuration with no `sae_load_method` key does not fail:
`load_sae_model` silently defaults to the `"saelens"` back-end, and the
unrecognised-method error can only arise from a present, unsupported
value. -/
theorem load_sae_model_missing_key_defaults (config : SAEConfig)
    (h : config.sae_load_method = none) :
    load_sae_model config = Except.ok (LoadedSAE.saelens config.sae config.layer) ∧
    ∀ (cfg : SAEConfig) (e : String), load_sae_model cfg = Except.error e →
      ∃ v, cfg.sae_load_method = some v ∧ v ≠ "saelens" ∧ v ≠ "gemmascope" := by
  constructor
  · simp [load_sae_model, h]
  · intro cfg e he
    cases hm : cfg.sae_load_method with
    | none => simp [load_sae_model, hm] at he
    | some v =>
      refine ⟨v, rfl, ?_, ?_⟩
      · intro hv
        simp [load_sae_model, hm, hv] at he
      · intro hv
        simp [load_sae_model, hm, hv] at he

/-- Witness for C10 on a configuration with no load-method key. -/
theorem load_sae_model_missing_key_defaults_witness :
    load_sae_model ⟨none, "rel", "lay", "repo", "file"⟩
      = Except.ok (LoadedSAE.saelens "rel" "lay") ∧
    ∀ (cfg : SAEConfig) (e : String), load_sae_model cfg = Except.error e →
      ∃ v, cfg.sae_load_method = some v ∧ v ≠ "saelens" ∧ v ≠ "gemmascope" :=
  load_sae_model_missing_key_defaults ⟨none, "rel", "lay", "repo", "file"⟩ rfl

/-- C8: when the hardcoded default prompt is set, `analyse_steer` uses it
and never reads `prompts.json` (its output does not depend on the prompts
file at all, and every generation batch is seeded with the default
prompt); only when the default is unset is the first element of the
prompts file used. -/
theorem default_prompt_wins :
    ∀ (p : String) (files files' : List String) sampler evalFn goal method path,
    select_prompt (some p) files = some p ∧
    analyse_steer sampler evalFn (some p) files goal method path
      = analyse_steer sampler evalFn (some p) files' goal method path ∧
    (analyse_steer sampler evalFn (some p) files goal method path).all_texts
      = (pyRange 0 320 20).map (fun s => (s, steer_model sampler p s 256)) ∧
    ∀ (f : String) (fs : List String), select_prompt none (f :: fs) = some f := by
  intro p files files' sampler evalFn goal method path
  refine ⟨rfl, rfl, ?_, fun f fs => rfl⟩
  simp [analyse_steer, step, List.map_map, select_prompt]

/-- C3: the swept scale sequence is `range(0, 320, 20)` — exactly 16
values ending at 300 — and at every scale `analyse_steer` requests a
batch of exactly 256 completions from the same prompt (so each recorded
batch has 256 texts). -/
theorem scale_sweep_shape :
    (pyRange 0 320 20).length = 16 ∧
    (pyRange 0 320 20).getLast? = some 300 ∧
    ∀ sampler evalFn dp pf goal method path,
      ((analyse_steer sampler evalFn dp pf goal method path).all_texts).map
          (fun b => b.2.length) = List.replicate 16 256 ∧
      (analyse_steer sampler evalFn dp pf goal method path).all_texts
        = (pyRange 0 320 20).map (fun s =>
            (s, steer_model sampler ((select_prompt dp pf).getD "") s 256)) := by
  refine ⟨by decide, by decide, ?_⟩
  intro sampler evalFn dp pf goal method path
  constructor
  · have hlen : (pyRange 0 320 20).length = 16 := by decide
    simp only [analyse_steer, List.map_map]
    rw [map_const_of_all _ 256 _ (fun s => by simp [Function.comp, step, steer_model]), hlen]
  · simp [analyse_steer, step, List.map_map]

/-- C9: in the record `analyse_steer` returns, the lists `scales`,
`avg_coherence`, `avg_score`, `product`, `individual_scores`,
`individual_coherences` and `individual_products` all have length 16 (one
entry per swept scale), and `product` is the pointwise product of
`avg_coherence` and `avg_score`. -/
theorem graph_data_invariants (sampler : String → ℕ → ℕ → String)
    (evalFn : List String → String → List ℚ × List ℚ)
    (dp : Option String) (pf : List String) (goal method path : String) :
    (analyse_steer sampler evalFn dp pf goal method path).scales.length = 16 ∧
    (analyse_steer sampler evalFn dp pf goal method path).avg_coherence.length = 16 ∧
    (analyse_steer sampler evalFn dp pf goal method path).avg_score.length = 16 ∧
    (analyse_steer sampler evalFn dp pf goal method path).product.length = 16 ∧
    (analyse_steer sampler evalFn dp pf goal method path).individual_scores.length = 16 ∧
    (analyse_steer sampler evalFn dp pf goal method path).individual_coherences.length = 16 ∧
    (analyse_steer sampler evalFn dp pf goal method path).individual_products.length = 16 ∧
    (analyse_steer sampler evalFn dp pf goal method path).product
      = (analyse_steer sampler evalFn dp pf goal method path).avg_coherence.zipWith
          (fun c s => c * s)
          (analyse_steer sampler evalFn dp pf goal method path).avg_score ∧
    ∀ i, (analyse_steer sampler evalFn dp pf goal method path).product.getD i 0
        = (analyse_steer sampler evalFn dp pf goal method path).avg_coherence.getD i 0
            * (analyse_steer sampler evalFn dp pf goal method path).avg_score.getD i 0 := by
  have hlen : (pyRange 0 320 20).length = 16 := by decide
  refine ⟨?_, ?_, ?_, ?_, ?_, ?_, ?_, rfl, ?_⟩
  · simpa [analyse_steer] using hlen
  · simpa [analyse_steer] using hlen
  · simpa [analyse_steer] using hlen
  · simpa [analyse_steer, List.length_zipWith] using hlen
  · simpa [analyse_steer] using hlen
  · simpa [analyse_steer] using hlen
  · simpa [analyse_steer] using hlen
  · intro i
    have hl : (analyse_steer sampler evalFn dp pf goal method path).avg_coherence.length
        = (analyse_steer sampler evalFn dp pf goal method path).avg_score.length := by
      simp [analyse_steer]
    exact zipWith_mul_getD _ _ hl i

/-- C2: given the parallel per-scale mean-coherence and mean-score lists,
`best_scale` (lines 229-231 of `analyse_steer`) reports the scale whose
`mean(coherence) × mean(score)` product is maximal, resolving ties to the
first such scale in scale order, with `max_product` equal to that maximal
product; and `analyse_steer` takes its `max_product` / `scale_at_max`
fields from exactly this selection. -/
theorem best_scale_argmax (scales : List ℕ) (coh score : List ℚ)
    (h1 : coh.length = scales.length) (h2 : score.length = scales.length)
    (h3 : scales ≠ []) :
    (∃ j, j < scales.length ∧
      (coh.zipWith (fun c s => c * s) score).getD j 0
          = (best_scale scales (coh.zipWith (fun c s => c * s) score)).1 ∧
      (best_scale scales (coh.zipWith (fun c s => c * s) score)).2 = scales.getD j 0 ∧
      (∀ k, k < scales.length →
        (coh.zipWith (fun c s => c * s) score).getD k 0
          ≤ (best_scale scales (coh.zipWith (fun c s => c * s) score)).1) ∧
      (∀ k, k < j →
        (coh.zipWith (fun c s => c * s) score).getD k 0
          ≠ (best_scale scales (coh.zipWith (fun c s => c * s) score)).1)) ∧
    ∀ sampler evalFn dp pf goal method path,
      (analyse_steer sampler evalFn dp pf goal method path).max_product
          = (best_scale (analyse_steer sampler evalFn dp pf goal method path).scales
              (analyse_steer sampler evalFn dp pf goal method path).product).1 ∧
      (analyse_steer sampler evalFn dp pf goal method path).scale_at_max
          = (best_scale (analyse_steer sampler evalFn dp pf goal method path).scales
              (analyse_steer sampler evalFn dp pf goal method path).product).2 := by
  refine ⟨?_, fun sampler evalFn dp pf goal method path => ⟨rfl, rfl⟩⟩
  have hplen : (coh.zipWith (fun c s => c * s) score).length = scales.length := by
    rw [List.length_zipWith, h1, h2, min_self]
  have hpne : coh.zipWith (fun c s => c * s) score ≠ [] := by
    intro h0
    apply h3
    rw [← List.length_eq_zero, ← hplen, h0]
    rfl
  obtain ⟨m, hmax, hmem, hall⟩ := max?_spec _ hpne
  have hmp : (best_scale scales (coh.zipWith (fun c s => c * s) score)).1 = m := by
    simp [best_scale, hmax]
  have hsc : (best_scale scales (coh.zipWith (fun c s => c * s) score)).2
      = scales.getD ((coh.zipWith (fun c s => c * s) score).indexOf m) 0 := by
    simp [best_scale, hmax]
  have hjlt : (coh.zipWith (fun c s => c * s) score).indexOf m
      < (coh.zipWith (fun c s => c * s) score).length :=
    List.indexOf_lt_length.mpr hmem
  refine ⟨(coh.zipWith (fun c s => c * s) score).indexOf m, hplen ▸ hjlt, ?_, hsc, ?_, ?_⟩
  · rw [hmp]
    exact getD_indexOf hmem 0
  · intro k hk
    rw [hmp]
    have hk' : k < (coh.zipWith (fun c s => c * s) score).length := by omega
    rw [List.getD_eq_getElem _ 0 hk']
    exact hall _ (List.getElem_mem hk')
  · intro k hk
    rw [hmp]
    exact getD_ne_of_lt_indexOf hk 0

/-- Witness for C2 on a two-scale sweep with a tie: both products are
`1/6`, so the first scale, `0`, is reported. -/
theorem best_scale_argmax_witness :
    (∃ j, j < [0, 20].length ∧
      (([(1:ℚ)/2, 1/2]).zipWith (fun c s => c * s) [1/3, 1/3]).getD j 0
          = (best_scale [0, 20]
              (([(1:ℚ)/2, 1/2]).zipWith (fun c s => c * s) [1/3, 1/3])).1 ∧
      (best_scale [0, 20]
          (([(1:ℚ)/2, 1/2]).zipWith (fun c s => c * s) [1/3, 1/3])).2
        = [0, 20].getD j 0 ∧
      (∀ k, k < [0, 20].length →
        (([(1:ℚ)/2, 1/2]).zipWith (fun c s => c * s) [1/3, 1/3]).getD k 0
          ≤ (best_scale [0, 20]
              (([(1:ℚ)/2, 1/2]).zipWith (fun c s => c * s) [1/3, 1/3])).1) ∧
      (∀ k, k < j →
        (([(1:ℚ)/2, 1/2]).zipWith (fun c s => c * s) [1/3, 1/3]).getD k 0
          ≠ (best_scale [0, 20]
              (([(1:ℚ)/2, 1/2]).zipWith (fun c s => c * s) [1/3, 1/3])).1)) ∧
    ∀ sampler evalFn dp pf goal method path,
      (analyse_steer sampler evalFn dp pf goal method path).max_product
          = (best_scale (analyse_steer sampler evalFn dp pf goal method path).scales
              (analyse_steer sampler evalFn dp pf goal method path).product).1 ∧
      (analyse_steer sampler evalFn dp pf goal method path).scale_at_max
          = (best_scale (analyse_steer sampler evalFn dp pf goal method path).scales
              (analyse_steer sampler evalFn dp pf goal method path).product).2 :=
  best_scale_argmax [0, 20] [1/2, 1/2] [1/3, 1/3] (by decide) (by decide) (by decide)

/-- C1 (counterexample): `pinverse_steer` does not normalise its output.
With the 1×1 identity adapter weight (its own pseudo-inverse), bias `3`
and target `2`, it returns the vector `(-2)`, of norm `2 ≠ 1`. -/
theorem pinverse_steer_not_unit_norm :
    isPinv (1 : Matrix (Fin 1) (Fin 1) ℝ) 1 ∧
    l2norm (pinverse_steer (1 : Matrix (Fin 1) (Fin 1) ℝ) ![3] ![2] 1) ≠ 1 := by
  refine ⟨isPinv_one, ?_⟩
  have hn : l2norm (![2] : Fin 1 → ℝ) = 2 := by
    show Real.sqrt (∑ i, (![2] : Fin 1 → ℝ) i ^ 2) = 2
    rw [Fin.sum_univ_one]
    norm_num
    rw [show (4 : ℝ) = 2 ^ 2 by norm_num]
    exact Real.sqrt_sq (by norm_num)
  have hv : pinverse_steer (1 : Matrix (Fin 1) (Fin 1) ℝ) ![3] ![2] 1
      = ![(-2 : ℝ)] := by
    funext i
    fin_cases i
    simp [pinverse_steer, normalize, Matrix.vecMul_one, Matrix.vecHead, hn]
    norm_num
  rw [hv]
  have h2 : l2norm (![(-2 : ℝ)] : Fin 1 → ℝ) = 2 := by
    show Real.sqrt (∑ i, (![(-2 : ℝ)] : Fin 1 → ℝ) i ^ 2) = 2
    rw [Fin.sum_univ_one]
    norm_num
    rw [show (4 : ℝ) = 2 ^ 2 by norm_num]
    exact Real.sqrt_sq (by norm_num)
  rw [h2]
  norm_num

/-- C1 (amended): the activation-difference, SAE-feature and
optimised-adapter derivations return unit-L2-norm steering vectors
(whenever the vector being normalised is nonzero) — in particular
`single_step_steer` does — but `pinverse_steer` leaves its result
unnormalised (see the counterexample). -/
theorem steering_vectors_unit_norm {d F e m n : ℕ}
    (steer : Fin d → ℝ) (W_dec : Matrix (Fin F) (Fin e) ℝ)
    (features : List (Fin F × ℝ))
    (W : Matrix (Fin m) (Fin n) ℝ) (b target : Fin n → ℝ) (bias_scale : ℝ)
    (h1 : steer ≠ 0) (h2 : sae_steer_pre W_dec features ≠ 0)
    (h3 : single_step_pre W b target bias_scale ≠ 0) :
    l2norm (act_steer_normalised steer) = 1 ∧
    l2norm (sae_steer_vec W_dec features) = 1 ∧
    l2norm (single_step_steer W b target bias_scale) = 1 :=
  ⟨l2norm_normalize h1, l2norm_normalize h2, l2norm_normalize h3⟩

/-- Witness for C1 (amended) at concrete nonzero inputs. -/
theorem steering_vectors_unit_norm_witness :
    l2norm (act_steer_normalised ![(3 : ℝ)]) = 1 ∧
    l2norm (sae_steer_vec !![(2 : ℝ)] [((0 : Fin 1), (3 : ℝ))]) = 1 ∧
    l2norm (single_step_steer (1 : Matrix (Fin 2) (Fin 2) ℝ) ![0, 1] ![1, 0] 1) = 1 := by
  refine steering_vectors_unit_norm ![(3 : ℝ)] !![(2 : ℝ)] [((0 : Fin 1), (3 : ℝ))]
    (1 : Matrix (Fin 2) (Fin 2) ℝ) ![0, 1] ![1, 0] 1 ?_ ?_ ?_
  · intro h
    have h0 := congrFun h 0
    norm_num at h0
  · intro h
    have h0 := congrFun h 0
    simp [sae_steer_pre] at h0
  · intro h
    have h0 := congrFun h 0
    simp [single_step_pre, normalize, l2norm, Matrix.one_mulVec,
      Fin.sum_univ_two] at h0

/-- C6 (counterexample): `load_pinv_steer` does not solve
`(target − bias) · pinv(W)` on the raw feature-space target: with the 1×1
identity weight (its own pseudo-inverse), zero bias and the single
configured feature `(0, 2)`, the code returns `(1)` (it normalises the
target first) while the claimed linear system gives `(2)`. -/
theorem load_pinv_steer_vs_spec :
    isPinv (1 : Matrix (Fin 1) (Fin 1) ℝ) 1 ∧
    load_pinv_steer_vec (1 : Matrix (Fin 1) (Fin 1) ℝ) ![0] [((0 : Fin 1), (2 : ℝ))]
      ≠ pinv_solution_spec (1 : Matrix (Fin 1) (Fin 1) ℝ) ![0]
          (load_pinv_target [((0 : Fin 1), (2 : ℝ))]) := by
  refine ⟨isPinv_one, ?_⟩
  have ht : load_pinv_target [((0 : Fin 1), (2 : ℝ))] = ![2] := by
    funext i
    fin_cases i
    simp [load_pinv_target]
  have hn : l2norm (![2] : Fin 1 → ℝ) = 2 := by
    show Real.sqrt (∑ i, (![2] : Fin 1 → ℝ) i ^ 2) = 2
    rw [Fin.sum_univ_one]
    norm_num
    rw [show (4 : ℝ) = 2 ^ 2 by norm_num]
    exact Real.sqrt_sq (by norm_num)
  intro h
  have h0 := congrFun h 0
  rw [load_pinv_steer_vec, ht] at h0
  simp [pinverse_steer, pinv_solution_spec, normalize, Matrix.vecMul_one,
    Matrix.vecHead, hn, ht] at h0

/-- C6 (amended): `load_pinv_steer` builds the same feature-space target
as `load_optimised_steer` (zeros, with the configured scale at each
configured feature id) and returns the solution of the linear system
`(target/‖target‖ − bias) · pinv(W)`: the target is unit-normalised
before the solve. -/
theorem load_pinv_steer_solves_normalised_target {m n : ℕ}
    (Wp : Matrix (Fin n) (Fin m) ℝ) (b : Fin n → ℝ)
    (features : List (Fin n × ℝ)) :
    load_pinv_target features = load_optimised_target features ∧
    load_pinv_steer_vec Wp b features
      = Matrix.vecMul (normalize (load_pinv_target features) - b) Wp := by
  refine ⟨rfl, ?_⟩
  simp [load_pinv_steer_vec, pinverse_steer]

/-! ### C7: failure propagation in the sweep loop -/

/-- Placeholder successful result of one `analyse_steer` call, for
exercising the sweep loop. -/
def trivial_output : AnalyseOutput :=
  { all_texts := [], result_path := "", result_method := ""
    steering_goal_name := "", max_product := 0, scale_at_max := 0
    scales := [], avg_coherence := [], avg_score := [], product := []
    individual_scores := [], individual_coherences := []
    individual_products := [] }

/-- A sweep body whose output write fails for configuration `"a"` and
succeeds for every other configuration. -/
def failing_write_body : String → String → Except String AnalyseOutput :=
  fun path _ => if path = "a" then Except.error "write failed" else Except.ok trivial_output

/-- C7 (counterexample): a write failure for one configuration aborts the
whole sweep.  With a body that fails on configuration `"a"` and succeeds
on `"b"`, running the sweep over `["a", "b"]` yields the error — no
result list at all is produced, so the later configuration `"b"` (which
on its own would succeed) is never processed. -/
theorem write_failure_aborts_sweep_counterexample :
    run_sweep failing_write_body ["a", "b"] = Except.error "write failed" ∧
    (∀ rs, run_sweep failing_write_body ["a", "b"] ≠ Except.ok rs) ∧
    run_sweep failing_write_body ["b"]
      = Except.ok [trivial_output, trivial_output, trivial_output, trivial_output] := by
  refine ⟨rfl, ?_, rfl⟩
  intro rs h
  have he : run_sweep failing_write_body ["a", "b"]
      = Except.error "write failed" := rfl
  rw [he] at h
  exact Except.noConfusion h

/-- C7 (amended): any exception while processing one configuration
(including an I/O failure writing its outputs) propagates out of the
sweep loop, aborting the remaining configurations. -/
theorem write_failure_aborts_sweep
    (body : String → String → Except String AnalyseOutput)
    (e p : String) (rest : List String)
    (h : process_path body p = Except.error e) :
    run_sweep body (p :: rest) = Except.error e := by
  show (List.mapM (process_path body) (p :: rest) >>= fun rss => pure rss.flatten)
      = Except.error e
  rw [List.mapM_cons, h]
  rfl

/-- Witness for C7 (amended) on the concrete failing body. -/
theorem write_failure_aborts_sweep_witness :
    run_sweep failing_write_body ("a" :: ["b"]) = Except.error "write failed" :=
  write_failure_aborts_sweep failing_write_body "write failed" "a" ["b"] rfl

end SAETS
